import Mathlib

/-!
Shallow embedding of the xlwings value-conversion pipeline
(`xlwings/conversion/standard.py` and `xlwings/conversion/object_conv.py`).

Python values flowing through the pipeline are modelled by `PyVal`;
runtime types by `PyType`.  Stateful stages are modelled as explicit
functions on values/contexts; fallible Python code returns `Except PyErr`.
-/

set_option autoImplicit false

namespace XlwingsConv

/-- Python runtime types relevant to the conversion pipeline.
`custom n` stands for an arbitrary user-defined class (index `n`). -/
inductive PyType where
  | noneT | boolT | intT | strT | listT | tupT | dictT | kvT
  | custom (n : Nat)
  deriving DecidableEq, Repr

/-- Python values flowing through the pipeline.  `kv` is a
`KeyValuePair` instance (object_conv.py); `inst t p` is an instance of
the user-defined class `custom t` with payload `p`. -/
inductive PyVal where
  | none : PyVal
  | bool : Bool → PyVal
  | int : Int → PyVal
  | str : String → PyVal
  | list : List PyVal → PyVal
  | tup : List PyVal → PyVal
  | dict : List (PyVal × PyVal) → PyVal
  | kv : PyVal → PyVal → PyVal
  | inst : Nat → Nat → PyVal

mutual

/-- Python structural equality `==` on the modelled values. -/
def PyVal.beq : PyVal → PyVal → Bool
  | .none, .none => true
  | .bool a, .bool b => a == b
  | .int a, .int b => a == b
  | .str a, .str b => a == b
  | .list a, .list b => beqValList a b
  | .tup a, .tup b => beqValList a b
  | .dict a, .dict b => beqValPairs a b
  | .kv k1 v1, .kv k2 v2 => PyVal.beq k1 k2 && PyVal.beq v1 v2
  | .inst t1 p1, .inst t2 p2 => t1 == t2 && p1 == p2
  | _, _ => false

/-- Elementwise `==` on lists of Python values. -/
def beqValList : List PyVal → List PyVal → Bool
  | [], [] => true
  | x :: xs, y :: ys => PyVal.beq x y && beqValList xs ys
  | _, _ => false

/-- Elementwise `==` on lists of Python key/value pairs. -/
def beqValPairs : List (PyVal × PyVal) → List (PyVal × PyVal) → Bool
  | [], [] => true
  | (k1, v1) :: xs, (k2, v2) :: ys =>
      PyVal.beq k1 k2 && PyVal.beq v1 v2 && beqValPairs xs ys
  | _, _ => false

end

/-- Python's `type(v)` for the modelled values. -/
def typeOf : PyVal → PyType
  | .none => .noneT
  | .bool _ => .boolT
  | .int _ => .intT
  | .str _ => .strT
  | .list _ => .listT
  | .tup _ => .tupT
  | .dict _ => .dictT
  | .kv _ _ => .kvT
  | .inst t _ => .custom t

/-- Python truthiness (`bool(v)`) for the modelled values. -/
def pyTruthy : PyVal → Bool
  | .none => false
  | .bool b => b
  | .int n => n != 0
  | .str s => s != ""
  | .list l => !l.isEmpty
  | .tup l => !l.isEmpty
  | .dict d => !d.isEmpty
  | .kv _ _ => true
  | .inst _ _ => true

/-- Kinds of Python exceptions raised by the embedded code. -/
inductive PyErr where
  | indexError | typeError | valueError | keyError
  | assertionError | attributeError | shapeError
  deriving DecidableEq, Repr

/-! ## Options

The `types` option of `ConvertDataFromReadStage._resolve_converters`:
absent (`KeyError`), the string `"all"`, a single type, or a
list/tuple of types. -/

inductive TypesOpt where
  | all : TypesOpt
  | one : PyType → TypesOpt
  | many : List PyType → TypesOpt

/-- The options bag, restricted to the keys the modelled stages read.
`Option.none` models an absent key. -/
structure Options where
  types : Option TypesOpt
  ndim : Option Int
  expand : Option String
  transpose : Bool
  skipTLCells : Option (Nat × Nat)

/-- Python truthiness of the `expand` option value (a mode name string;
`None` and the empty string are falsy). -/
def expandTruthy : Option String → Bool
  | Option.none => false
  | Option.some s => s != ""

/-! ## Registry and converters

`accessors` is a dict from a type key to an Accessor class, insertion
ordered, looked up by exact key (src comment / spec §2).  A registered
class may be a plain Accessor or a `Converter`
(`issubclass(accessors[cls], Converter)`); a `Converter` contributes
`read_value` / `write_value`.  `mroLen` models `len(cls.mro())` of the
KEY type (used only by `_sort_types_by_inheritance`). -/

structure RegEntry where
  isConverter : Bool
  mroLen : Nat
  readValue : Options → PyVal → Except PyErr PyVal
  writeValue : Options → PyVal → Except PyErr PyVal

/-- The `accessors` registry: insertion-ordered association list from
exact type key to registered class. -/
def Registry := List (PyType × RegEntry)

/-- Exact-key dict lookup (`accessors.get(cls)` / `cls in accessors`). -/
def lookupReg : Registry → PyType → Option RegEntry
  | [], _ => Option.none
  | (t, e) :: rest, cls => if t = cls then Option.some e else lookupReg rest cls

/-- `len(cls.mro())` of a registered key (the sort below is only ever
applied to `accessors.keys()`, so the lookup always succeeds). -/
def mroOf (reg : Registry) (cls : PyType) : Nat :=
  match lookupReg reg cls with
  | Option.some e => e.mroLen
  | Option.none => 0

/-- Stable insertion into a descending-by-`mro`-length list: a new
element goes after existing elements of equal key, matching the
stability of Python's `sorted`. -/
def insertByMro (reg : Registry) (x : PyType) : List PyType → List PyType
  | [] => [x]
  | y :: ys => if mroOf reg y < mroOf reg x then x :: y :: ys else y :: insertByMro reg x ys

/-- `ConvertDataFromReadStage._sort_types_by_inheritance`:
`sorted(types, key=lambda x: len(x.mro()), reverse=True)` — a stable
sort, deepest ancestry chain first (src lines 179-180). -/
def sortTypesByInheritance (reg : Registry) (types : List PyType) : List PyType :=
  types.foldl (fun acc x => insertByMro reg x acc) []

/-- `accessors.keys()` in insertion order. -/
def regKeys (reg : Registry) : List PyType := reg.map (fun p => p.1)

/-- `ConvertDataFromReadStage._resolve_converters` (src lines 163-177):
the `types` option is turned into a list of types (`'all'` → every
registered key, most-specific-first; a bare type → singleton), then
mapped through the registry keeping only keys that are present and
registered to a `Converter`. -/
def resolveConvertersRead (reg : Registry) (options : Options) : List RegEntry :=
  match options.types with
  | Option.none => []
  | Option.some t =>
      let types := match t with
        | .all => sortTypesByInheritance reg (regKeys reg)
        | .one cls => [cls]
        | .many clss => clss
      types.filterMap (fun cls =>
        match lookupReg reg cls with
        | Option.some e => if e.isConverter then Option.some e else Option.none
        | Option.none => Option.none)

/-- `ConvertDataForWriteStage._resolve_converters` (src lines 190-194):
`accessors.get(type(value))`, wrapped as a one-element list when it is
a `Converter`.  NOTE: the stage's `__call__` passes the output
accumulator list as `value`, see `convertGrid` below. -/
def resolveConvertersWrite (reg : Registry) (value : PyVal) : List RegEntry :=
  match lookupReg reg (typeOf value) with
  | Option.some e => if e.isConverter then [e] else []
  | Option.none => []

/-! ## ConvertDataStage.__call__ (src lines 132-145)

Per cell `x`: iterate the resolved converters, `break` on the first
whose conversion does not raise, and on full failure (`for … else`)
keep `x` unchanged.  `_resolve_converters` is called with the local
accumulator `value` (the converted rows built so far, with the current
partial row already appended), not with the cell. -/

/-- The `for converter in …: try … break / except: continue / else`
loop body: first successful conversion wins, otherwise the original
cell value is kept. -/
def tryConverters (apply : RegEntry → PyVal → Except PyErr PyVal) :
    List RegEntry → PyVal → PyVal
  | [], x => x
  | conv :: rest, x =>
      match apply conv x with
      | .ok r => r
      | .error _ => tryConverters apply rest x

/-- The Python value of the accumulator `value` at the moment
`_resolve_converters(value)` is called: the finished rows plus the
current partial row, as a list of lists. -/
def accumVal (done : List (List PyVal)) (cur : List PyVal) : PyVal :=
  PyVal.list ((done ++ [cur]).map PyVal.list)

/-- Inner loop of `ConvertDataStage.__call__`: convert the cells of one
row, threading the accumulator that is handed to `_resolve_converters`. -/
def convertRowGo (resolve : PyVal → List RegEntry)
    (apply : RegEntry → PyVal → Except PyErr PyVal)
    (done : List (List PyVal)) (cur : List PyVal) : List PyVal → List PyVal
  | [] => cur
  | x :: xs =>
      convertRowGo resolve apply done
        (cur ++ [tryConverters apply (resolve (accumVal done cur)) x]) xs

/-- Outer loop of `ConvertDataStage.__call__` over the rows. -/
def convertGridGo (resolve : PyVal → List RegEntry)
    (apply : RegEntry → PyVal → Except PyErr PyVal)
    (done : List (List PyVal)) : List (List PyVal) → List (List PyVal)
  | [] => done
  | y :: ys => convertGridGo resolve apply (done ++ [convertRowGo resolve apply done [] y]) ys

/-- `ConvertDataStage.__call__` on a 2D `c.value`. -/
def convertGrid (resolve : PyVal → List RegEntry)
    (apply : RegEntry → PyVal → Except PyErr PyVal)
    (rows : List (List PyVal)) : List (List PyVal) :=
  convertGridGo resolve apply [] rows

/-- `ConvertDataFromReadStage.__call__`: `_convert` is
`converter.read_value(value, self.options)`. -/
def convertDataFromReadStage (reg : Registry) (options : Options)
    (rows : List (List PyVal)) : List (List PyVal) :=
  convertGrid (fun _ => resolveConvertersRead reg options)
    (fun conv x => conv.readValue options x) rows

/-- `ConvertDataForWriteStage.__call__`: `_convert` is
`converter.write_value(value, self.options)`, and the converter is
resolved from the accumulator passed by `ConvertDataStage.__call__`. -/
def convertDataForWriteStage (reg : Registry) (options : Options)
    (rows : List (List PyVal)) : List (List PyVal) :=
  convertGrid (fun accum => resolveConvertersWrite reg accum)
    (fun conv x => conv.writeValue options x) rows

/-! ## AdjustDimensionsStage (src lines 197-224)

Input is assumed 2-dimensional (a list of rows).  Note that for an
empty `c.value` the branch `elif len(c.value[0]) == 1` raises
`IndexError`. -/

/-- A 2D value as a Python list of lists. -/
def pyGrid (rows : List (List PyVal)) : PyVal :=
  PyVal.list (rows.map PyVal.list)

/-- `[x[0] for x in rows]`: first element of every row, `IndexError`
on an empty row. -/
def firstOfRows : List (List PyVal) → Except PyErr (List PyVal)
  | [] => .ok []
  | (x :: _) :: rest => (firstOfRows rest).map (fun l => x :: l)
  | [] :: _ => .error .indexError

/-- `AdjustDimensionsStage.__call__`, parametrised by the `ndim`
option (`Option.none` = absent), following the `if / elif` chain of
the source: `ndim != 2` raises `ValueError`, `ndim == 2` falls
through as a no-op. -/
def adjustDimensionsStage (ndim : Option Int) (rows : List (List PyVal)) :
    Except PyErr PyVal :=
  match ndim with
  | Option.none =>
      match rows with
      | [r] =>
          match r with
          | [x] => .ok x
          | _ => .ok (PyVal.list r)
      | [] => .error .indexError
      | r0 :: _ :: _ =>
          if r0.length = 1 then (firstOfRows rows).map PyVal.list
          else .ok (pyGrid rows)
  | Option.some k =>
      if k = 1 then
        match rows with
        | [r] => .ok (PyVal.list r)
        | [] => .error .indexError
        | r0 :: _ :: _ =>
            if r0.length = 1 then (firstOfRows rows).map PyVal.list
            else .error .shapeError
      else if k = 2 then .ok (pyGrid rows)
      else .error .valueError

/-! ## Ensure2DStage (src lines 227-236) -/

/-- `isinstance(v, (list, tuple))`. -/
def isSeq : PyVal → Bool
  | .list _ => true
  | .tup _ => true
  | _ => false

/-- The slice of the pipeline Context the shape stages touch:
`c.value` and `c.meta['scalar']`. -/
structure Ctx where
  value : PyVal
  scalar : Bool

/-- `Ensure2DStage.__call__`: a nested sequence is untouched, a
nonempty flat sequence becomes `[seq]`, a non-sequence becomes
`[[v]]` with `meta['scalar'] = True`. -/
def ensure2DStage (c : Ctx) : Ctx :=
  match c.value with
  | .list [] => c
  | .tup [] => c
  | .list (x :: _) => if isSeq x then c else { c with value := PyVal.list [c.value] }
  | .tup (x :: _) => if isSeq x then c else { c with value := PyVal.list [c.value] }
  | v => { value := PyVal.list [PyVal.list [v]], scalar := true }

/-! ## TransposeStage (src lines 239-242)

`[[e[i] for e in c.value] for i in range(len(c.value[0]) if c.value else 0)]` -/

/-- `[e[i] for e in rows]`: column `i`, `IndexError` on a too-short row. -/
def pyColumn (rows : List (List PyVal)) (i : Nat) : Except PyErr (List PyVal) :=
  match rows with
  | [] => .ok []
  | r :: rest =>
      match r.get? i with
      | Option.some v => (pyColumn rest i).map (fun l => v :: l)
      | Option.none => .error .indexError

/-- Outer comprehension of `TransposeStage` over the column indices. -/
def transposeGo (rows : List (List PyVal)) : List Nat → Except PyErr (List (List PyVal))
  | [] => .ok []
  | i :: is =>
      match pyColumn rows i with
      | .error e => .error e
      | .ok col =>
          match transposeGo rows is with
          | .error e => .error e
          | .ok rest => .ok (col :: rest)

/-- `TransposeStage.__call__` on a 2D value. -/
def transposeStage (rows : List (List PyVal)) : Except PyErr (List (List PyVal)) :=
  transposeGo rows (List.range (match rows with | [] => 0 | r :: _ => r.length))

/-! ## Python dict operations

Python dicts keep insertion order; assigning to an existing key (by
`==`) updates the value in place keeping the original key object,
assigning a fresh key appends. -/

/-- `d[k] = v` on an insertion-ordered dict. -/
def pyDictInsert : List (PyVal × PyVal) → PyVal → PyVal → List (PyVal × PyVal)
  | [], k, v => [(k, v)]
  | (k0, v0) :: rest, k, v =>
      if PyVal.beq k0 k then (k0, v) :: rest else (k0, v0) :: pyDictInsert rest k v

/-- `d[k]` lookup by `==`, `Option.none` when the key is absent. -/
def pyDictGet : List (PyVal × PyVal) → PyVal → Option PyVal
  | [], _ => Option.none
  | (k0, v0) :: rest, k => if PyVal.beq k0 k then Option.some v0 else pyDictGet rest k

/-- `dict(pairs)`: build a dict from an iterable of pairs, later
occurrences of a key overwriting earlier ones. -/
def pyDictFromPairs (pairs : List (PyVal × PyVal)) : List (PyVal × PyVal) :=
  pairs.foldl (fun d p => pyDictInsert d p.1 p.2) []

/-! ## DictConverter (src lines 326-346) -/

/-- One item of the iterable handed to `dict(value)`: it must be an
iterable of exactly two elements (a 2-character string also
qualifies); otherwise `dict()` raises. -/
def rowAsPair : PyVal → Except PyErr (PyVal × PyVal)
  | .list [k, v] => .ok (k, v)
  | .tup [k, v] => .ok (k, v)
  | .list _ => .error .valueError
  | .tup _ => .error .valueError
  | .str s =>
      if s.length = 2 then .ok (PyVal.str (s.take 1), PyVal.str (s.drop 1))
      else .error .valueError
  | _ => .error .typeError

/-- `len(v)` for the values that support it. -/
def pyLen : PyVal → Except PyErr Nat
  | .list l => .ok l.length
  | .tup l => .ok l.length
  | .str s => .ok s.length
  | .dict d => .ok d.length
  | _ => .error .typeError

/-- `DictConverter.read_value(value, options)`:
`assert not value or len(value[0]) == 2; return dict(value)`. -/
def dictReadValue (value : PyVal) : Except PyErr PyVal :=
  match value with
  | .list [] => .ok (PyVal.dict [])
  | .tup [] => .ok (PyVal.dict [])
  | .list (r :: rest) =>
      match pyLen r with
      | .error e => .error e
      | .ok n =>
          if n = 2 then
            ((r :: rest).mapM rowAsPair).map (fun ps => PyVal.dict (pyDictFromPairs ps))
          else .error .assertionError
  | .tup (r :: rest) =>
      match pyLen r with
      | .error e => .error e
      | .ok n =>
          if n = 2 then
            ((r :: rest).mapM rowAsPair).map (fun ps => PyVal.dict (pyDictFromPairs ps))
          else .error .assertionError
  | _ => .error .typeError

/-- `DictConverter.write_value(value, options)`: `list(value.items())`
(a non-mapping has no `.items`). -/
def dictWriteValue (value : PyVal) : Except PyErr PyVal :=
  match value with
  | .dict d => .ok (PyVal.list (d.map (fun p => PyVal.tup [p.1, p.2])))
  | _ => .error .attributeError

/-- `DictConverter` as a registry entry under key `dict`
(`DictConverter.register(dict)`); `len(dict.mro()) = 2`. -/
def dictConverterEntry : RegEntry where
  isConverter := true
  mroLen := 2
  readValue := fun _ v => dictReadValue v
  writeValue := fun _ v => dictWriteValue v

/-! ## ObjectConverter (object_conv.py)

The class-level `cache` dict is threaded explicitly. -/

/-- `isinstance(v, KeyValuePair)`. -/
def isKeyValuePair : PyVal → Bool
  | .kv _ _ => true
  | _ => false

/-- `ObjectConverter.read_value`: a pure cache lookup, `KeyError`
when the handle is absent. -/
def objectReadValue (cache : List (PyVal × PyVal)) (value : PyVal) :
    Except PyErr PyVal :=
  match pyDictGet cache value with
  | Option.some obj => .ok obj
  | Option.none => .error .keyError

/-- `ObjectConverter.write_value`: requires a `KeyValuePair`, stores
the value under its key and returns the key; the updated cache is
returned alongside. -/
def objectWriteValue (cache : List (PyVal × PyVal)) (keyVal : PyVal) :
    Except PyErr (List (PyVal × PyVal) × PyVal) :=
  match keyVal with
  | .kv k v => .ok (pyDictInsert cache k v, k)
  | _ => .error .typeError

/-! ## Pipeline assembly (ValueAccessor.writer, src lines 306-316) -/

/-- The stages appearing in `ValueAccessor`'s pipelines, as tags. -/
inductive StageTag where
  | expandRange | clearExpandedRange | writeValueToRange | readValueFromRange
  | cleanDataFromRead | cleanDataForWrite | convertDataFromRead
  | convertDataForWrite | adjustDimensions | ensure2D | transposeTag
  deriving DecidableEq, Repr

/-- Modelled from the spec: the `Pipeline` class lives in the
conversion package's framework module, which is not part of the
excerpt.  Per spec §2/§3, a Pipeline is an ordered list of stages
executed in list order; `prepend_stage(s, only_if)` inserts at index 0
when the predicate (evaluated once, at assembly time) is truthy, and
is a no-op otherwise. -/
def prependStage (stages : List StageTag) (s : StageTag) (onlyIf : Bool) :
    List StageTag :=
  if onlyIf then s :: stages else stages

/-- Modelled from the spec: `append_stage(s, only_if)` appends at the
end when the predicate is truthy (spec §2/§3). -/
def appendStage (stages : List StageTag) (s : StageTag) (onlyIf : Bool) :
    List StageTag :=
  if onlyIf then stages ++ [s] else stages

/-- `ValueAccessor.writer(options)` (src lines 306-316): a fresh
Pipeline with six `prepend_stage` calls, two of them gated by
`only_if`. -/
def valueWriterStages (options : Options) : List StageTag :=
  let p : List StageTag := []
  let p := prependStage p .writeValueToRange true
  let p := prependStage p .clearExpandedRange (expandTruthy options.expand)
  let p := prependStage p .cleanDataForWrite true
  let p := prependStage p .convertDataForWrite true
  let p := prependStage p .transposeTag options.transpose
  let p := prependStage p .ensure2D true
  p

/-! ## Range-touching stages

A `Range` is an external collaborator (spec §6); range expressions
record how the range handed to the stage was derived (`resize`,
slicing), and each actual cell write (`rng.raw_value = v`) is recorded
as an emitted operation. -/

/-- Symbolic range values: the context's range plus the derivations
the stage applies to it.  `sliceTL rng r c` is `rng[:r, c:]`,
`sliceBR rng r` is `rng[r:, :]`. -/
inductive RangeExpr where
  | base : RangeExpr
  | resize : RangeExpr → Nat → Nat → RangeExpr
  | sliceTL : RangeExpr → Nat → Nat → RangeExpr
  | sliceBR : RangeExpr → Nat → RangeExpr
  deriving DecidableEq, Repr

/-- An observable effect on the spreadsheet: `rng.raw_value = v`. -/
inductive RangeOp where
  | setRawValue : RangeExpr → PyVal → RangeOp

/-- The slice of the Context `WriteValueToRangeStage` touches. -/
structure WCtx where
  range : Option RangeExpr
  value : PyVal
  scalar : Bool

/-- `v[0]` on a Python value. -/
def pyFirst : PyVal → Except PyErr PyVal
  | .list [] => .error .indexError
  | .tup [] => .error .indexError
  | .list (x :: _) => .ok x
  | .tup (x :: _) => .ok x
  | _ => .error .typeError

/-- `v[n:]` on a Python sequence (keeps the sequence kind). -/
def pySliceFrom (v : PyVal) (n : Nat) : Except PyErr PyVal :=
  match v with
  | .list l => .ok (PyVal.list (l.drop n))
  | .tup l => .ok (PyVal.tup (l.drop n))
  | _ => .error .typeError

/-- `v[:n]` on a Python sequence. -/
def pySliceTo (v : PyVal) (n : Nat) : Except PyErr PyVal :=
  match v with
  | .list l => .ok (PyVal.list (l.take n))
  | .tup l => .ok (PyVal.tup (l.take n))
  | _ => .error .typeError

/-- `[x[c:] for x in value[:r]]` from the skip branch. -/
def skipHeadRows (value : PyVal) (r c : Nat) : Except PyErr PyVal :=
  match pySliceTo value r with
  | .error e => .error e
  | .ok (PyVal.list rows) =>
      (rows.mapM (fun x => pySliceFrom x c)).map PyVal.list
  | .ok (PyVal.tup rows) =>
      (rows.mapM (fun x => pySliceFrom x c)).map PyVal.list
  | .ok _ => .error .typeError

/-- `WriteValueToRangeStage._write_value(rng, value, scalar)` (src
lines 65-73): guarded by `rng.api and value`; a scalar writes
`value[0][0]`, otherwise the range is resized to the value's shape
first.  `apiOk` models the truthiness of `rng.api`. -/
def writeValueHelper (apiOk : RangeExpr → Bool) (rng : RangeExpr) (value : PyVal)
    (scalar : Bool) : Except PyErr (List RangeOp) :=
  if apiOk rng && pyTruthy value then
    if scalar then
      match pyFirst value with
      | .error e => .error e
      | .ok row =>
          match pyFirst row with
          | .error e => .error e
          | .ok x => .ok [RangeOp.setRawValue rng x]
    else
      match pyLen value with
      | .error e => .error e
      | .ok rows =>
          match pyFirst value with
          | .error e => .error e
          | .ok row0 =>
              match pyLen row0 with
              | .error e => .error e
              | .ok cols => .ok [RangeOp.setRawValue (rng.resize rows cols) value]
  else .ok []

/-- `WriteValueToRangeStage.__call__` (src lines 75-93), returning the
final Context together with the cell writes performed.  `skip` is the
`_skip_tl_cells` option (a pair is always truthy in Python), `raw`
distinguishes `RawValueAccessor`. -/
def writeValueToRangeStage (apiOk : RangeExpr → Bool) (skip : Option (Nat × Nat))
    (raw : Bool) (c : WCtx) : Except PyErr (WCtx × List RangeOp) :=
  match c.range with
  | Option.none => .ok (c, [])
  | Option.some rng =>
      if pyTruthy c.value then
        if raw then .ok (c, [RangeOp.setRawValue rng c.value])
        else
          match
            (if c.scalar then .ok rng
             else
               match pyLen c.value with
               | .error e => .error e
               | .ok rows =>
                   match pyFirst c.value with
                   | .error e => .error e
                   | .ok row0 =>
                       match pyLen row0 with
                       | .error e => .error e
                       | .ok cols => .ok (rng.resize rows cols) :
               Except PyErr RangeExpr)
          with
          | .error e => .error e
          | .ok rng' =>
              let c' := { c with range := Option.some rng' }
              match skip with
              | Option.some (r, cc) =>
                  if c.scalar then
                    match writeValueHelper apiOk (rng'.sliceTL r cc) c.value true with
                    | .error e => .error e
                    | .ok ops1 =>
                        match writeValueHelper apiOk (rng'.sliceBR r) c.value true with
                        | .error e => .error e
                        | .ok ops2 => .ok (c', ops1 ++ ops2)
                  else
                    match skipHeadRows c.value r cc with
                    | .error e => .error e
                    | .ok headVal =>
                        match writeValueHelper apiOk (rng'.sliceTL r cc) headVal false with
                        | .error e => .error e
                        | .ok ops1 =>
                            match pySliceFrom c.value r with
                            | .error e => .error e
                            | .ok bulkVal =>
                                match writeValueHelper apiOk (rng'.sliceBR r) bulkVal false with
                                | .error e => .error e
                                | .ok ops2 => .ok (c', ops1 ++ ops2)
              | Option.none =>
                  match writeValueHelper apiOk rng' c.value c.scalar with
                  | .error e => .error e
                  | .ok ops => .ok (c', ops)
      else .ok (c, [])

/-- The call `expander.clear(range, skip, vshape)` recorded by
`ClearExpandedRangeStage`. -/
inductive ClearOp where
  | clear : RangeExpr → (Nat × Nat) → (Nat × Nat) → ClearOp

/-- `ClearExpandedRangeStage.__call__` (src lines 47-57): when the
context has a range and `expand` is set, delegate to the expander's
`clear` with `vshape = (len(value), len(value) and len(value[0]))`. -/
def clearExpandedRangeStage (expand : Option String) (skip : Option (Nat × Nat))
    (range : Option RangeExpr) (value : List (List PyVal)) : List ClearOp :=
  match range with
  | Option.none => []
  | Option.some rng =>
      if expandTruthy expand then
        let vrows := value.length
        let vcols := if vrows = 0 then 0 else (value.headI).length
        [ClearOp.clear rng (match skip with | Option.some p => p | Option.none => (0, 0)) (vrows, vcols)]
      else []

/-! ## Mathematical transpose and concrete fixtures -/

/-- The mathematical transpose of a rectangular `rows` with `n`
columns (what `TransposeStage` computes when it does not raise). -/
def transposedFun (n : Nat) (rows : List (List PyVal)) : List (List PyVal) :=
  (List.range n).map (fun i => rows.map (fun r => r.getD i PyVal.none))

/-- An options bag with every key absent. -/
def optsPlain : Options := ⟨Option.none, Option.none, Option.none, false, Option.none⟩

/-- Options with `types='all'` only. -/
def optsTypesAll : Options :=
  ⟨Option.some TypesOpt.all, Option.none, Option.none, false, Option.none⟩

/-- Options with `expand='table'` only. -/
def optsExpandTable : Options :=
  ⟨Option.none, Option.none, Option.some "table", false, Option.none⟩

/-- A registry holding only `DictConverter.register(dict)`, as
`standard.py` does. -/
def regDictOnly : Registry := [(PyType.dictT, dictConverterEntry)]

/-- The mapping `{'a': 1}`. -/
def dictA1 : PyVal := PyVal.dict [(PyVal.str "a", PyVal.int 1)]

/-- A converter registered for a base class `custom 0`
(`len(mro()) = 2`); its `read_value` always succeeds with `'A'`. -/
def entryA : RegEntry := ⟨true, 2, fun _ _ => .ok (PyVal.str "A"), fun _ v => .ok v⟩

/-- A converter registered for a subclass `custom 1` of `custom 0`
(`len(mro()) = 3`); its `read_value` always succeeds with `'B'`. -/
def entryB : RegEntry := ⟨true, 3, fun _ _ => .ok (PyVal.str "B"), fun _ v => .ok v⟩

/-! ## Helper lemmas -/

mutual

theorem PyVal.beq_refl : ∀ a : PyVal, PyVal.beq a a = true
  | .none => rfl
  | .bool b => by simp [PyVal.beq]
  | .int n => by simp [PyVal.beq]
  | .str s => by simp [PyVal.beq]
  | .list l => by simpa [PyVal.beq] using beqValList_refl l
  | .tup l => by simpa [PyVal.beq] using beqValList_refl l
  | .dict d => by simpa [PyVal.beq] using beqValPairs_refl d
  | .kv k v => by simp [PyVal.beq, PyVal.beq_refl k, PyVal.beq_refl v]
  | .inst t p => by simp [PyVal.beq]

theorem beqValList_refl : ∀ l : List PyVal, beqValList l l = true
  | [] => rfl
  | x :: xs => by simp [beqValList, PyVal.beq_refl x, beqValList_refl xs]

theorem beqValPairs_refl : ∀ l : List (PyVal × PyVal), beqValPairs l l = true
  | [] => rfl
  | (k, v) :: xs => by
      simp [beqValPairs, PyVal.beq_refl k, PyVal.beq_refl v, beqValPairs_refl xs]

end

theorem pyDictGet_insert_self (d : List (PyVal × PyVal)) (k v : PyVal) :
    pyDictGet (pyDictInsert d k v) k = Option.some v := by
  induction d with
  | nil => simp [pyDictInsert, pyDictGet, PyVal.beq_refl]
  | cons p rest ih =>
      obtain ⟨k0, v0⟩ := p
      by_cases hb : PyVal.beq k0 k = true
      · simp [pyDictInsert, pyDictGet, hb]
      · simp only [pyDictInsert, pyDictGet, hb, if_neg, Bool.not_eq_true] at *
        simp [hb, ih]

theorem pyDictInsert_fresh (d : List (PyVal × PyVal)) (k v : PyVal)
    (h : ∀ p ∈ d, PyVal.beq p.1 k = false) :
    pyDictInsert d k v = d ++ [(k, v)] := by
  induction d with
  | nil => rfl
  | cons p rest ih =>
      obtain ⟨k0, v0⟩ := p
      have h0 : PyVal.beq k0 k = false := h (k0, v0) (by simp)
      simp [pyDictInsert, h0, ih (fun q hq => h q (by simp [hq]))]

theorem pyDictFromPairs_go (d : List (PyVal × PyVal)) :
    ∀ acc, (∀ q ∈ acc, ∀ p ∈ d, PyVal.beq q.1 p.1 = false) →
      d.Pairwise (fun p q => PyVal.beq p.1 q.1 = false) →
      d.foldl (fun m p => pyDictInsert m p.1 p.2) acc = acc ++ d := by
  induction d with
  | nil => intro acc _ _; simp
  | cons p rest ih =>
      intro acc hacc hpw
      have hfresh : ∀ q ∈ acc, PyVal.beq q.1 p.1 = false :=
        fun q hq => hacc q hq p (by simp)
      rw [List.foldl_cons, pyDictInsert_fresh acc p.1 p.2 hfresh]
      have hpw' := List.pairwise_cons.mp hpw
      have hacc' : ∀ q ∈ acc ++ [p], ∀ p' ∈ rest, PyVal.beq q.1 p'.1 = false := by
        intro q hq p' hp'
        rcases List.mem_append.mp hq with hq | hq
        · exact hacc q hq p' (by simp [hp'])
        · simp at hq
          subst hq
          exact hpw'.1 p' hp'
      rw [ih (acc ++ [p]) hacc' hpw'.2]
      simp

theorem pyDictFromPairs_nodup (d : List (PyVal × PyVal))
    (h : d.Pairwise (fun p q => PyVal.beq p.1 q.1 = false)) :
    pyDictFromPairs d = d := by
  simpa [pyDictFromPairs] using pyDictFromPairs_go d [] (by simp) h

theorem tryConverters_all_fail (apply : RegEntry → PyVal → Except PyErr PyVal)
    (convs : List RegEntry) (x : PyVal)
    (h : ∀ d ∈ convs, ∃ e, apply d x = .error e) :
    tryConverters apply convs x = x := by
  induction convs with
  | nil => rfl
  | cons c rest ih =>
      obtain ⟨e, he⟩ := h c (by simp)
      simp [tryConverters, he, ih (fun d hd => h d (by simp [hd]))]

theorem tryConverters_first_ok (apply : RegEntry → PyVal → Except PyErr PyVal)
    (pre : List RegEntry) (conv : RegEntry) (post : List RegEntry) (x r : PyVal)
    (hpre : ∀ d ∈ pre, ∃ e, apply d x = .error e) (hok : apply conv x = .ok r) :
    tryConverters apply (pre ++ conv :: post) x = r := by
  induction pre with
  | nil => simp [tryConverters, hok]
  | cons c rest ih =>
      obtain ⟨e, he⟩ := hpre c (by simp)
      simp [tryConverters, he, ih (fun d hd => hpre d (by simp [hd]))]

theorem convertRowGo_const (resolve : PyVal → List RegEntry)
    (apply : RegEntry → PyVal → Except PyErr PyVal) (convs : List RegEntry)
    (h : ∀ done cur, resolve (accumVal done cur) = convs)
    (done : List (List PyVal)) :
    ∀ (ys : List PyVal) (cur : List PyVal),
      convertRowGo resolve apply done cur ys
        = cur ++ ys.map (tryConverters apply convs) := by
  intro ys
  induction ys with
  | nil => intro cur; simp [convertRowGo]
  | cons x xs ih =>
      intro cur
      simp only [convertRowGo, h done cur, ih, List.map_cons]
      simp

theorem convertGridGo_const (resolve : PyVal → List RegEntry)
    (apply : RegEntry → PyVal → Except PyErr PyVal) (convs : List RegEntry)
    (h : ∀ done cur, resolve (accumVal done cur) = convs) :
    ∀ (rows : List (List PyVal)) (done : List (List PyVal)),
      convertGridGo resolve apply done rows
        = done ++ rows.map (fun y => y.map (tryConverters apply convs)) := by
  intro rows
  induction rows with
  | nil => intro done; simp [convertGridGo]
  | cons y ys ih =>
      intro done
      simp only [convertGridGo]
      rw [convertRowGo_const resolve apply convs h done y [], ih]
      simp

theorem convertGrid_const (resolve : PyVal → List RegEntry)
    (apply : RegEntry → PyVal → Except PyErr PyVal) (convs : List RegEntry)
    (h : ∀ done cur, resolve (accumVal done cur) = convs)
    (rows : List (List PyVal)) :
    convertGrid resolve apply rows
      = rows.map (fun y => y.map (tryConverters apply convs)) := by
  simpa using convertGridGo_const resolve apply convs h rows []

theorem convertDataFromReadStage_eq (reg : Registry) (options : Options)
    (rows : List (List PyVal)) :
    convertDataFromReadStage reg options rows =
      rows.map (fun y => y.map (tryConverters (fun conv x => conv.readValue options x)
        (resolveConvertersRead reg options))) :=
  convertGrid_const _ _ _ (fun _ _ => rfl) rows

theorem convertDataForWriteStage_eq (reg : Registry) (options : Options)
    (rows : List (List PyVal)) :
    convertDataForWriteStage reg options rows =
      rows.map (fun y => y.map (tryConverters (fun conv x => conv.writeValue options x)
        (resolveConvertersWrite reg (PyVal.list [])))) :=
  convertGrid_const _ _ _ (fun _ _ => rfl) rows

theorem firstOfRows_singletons (xs : List PyVal) :
    firstOfRows (xs.map (fun x => [x])) = .ok xs := by
  induction xs with
  | nil => rfl
  | cons x rest ih => simp [firstOfRows, ih, Except.map]

theorem pyColumn_rect (n i : Nat) (hi : i < n) :
    ∀ rows : List (List PyVal), (∀ r ∈ rows, r.length = n) →
      pyColumn rows i = .ok (rows.map (fun r => r.getD i PyVal.none)) := by
  intro rows
  induction rows with
  | nil => intro _; rfl
  | cons r rest ih =>
      intro h
      have hr : r.length = n := h r (by simp)
      have hlt : i < r.length := by omega
      have hget : r[i]? = Option.some (r.get ⟨i, hlt⟩) := List.getElem?_eq_getElem hlt
      simp [pyColumn, hget, ih (fun q hq => h q (by simp [hq])), Except.map]

theorem transposeGo_rect (n : Nat) (rows : List (List PyVal))
    (h : ∀ r ∈ rows, r.length = n) :
    ∀ is : List Nat, (∀ i ∈ is, i < n) →
      transposeGo rows is
        = .ok (is.map (fun i => rows.map (fun r => r.getD i PyVal.none))) := by
  intro is
  induction is with
  | nil => intro _; rfl
  | cons i irest ih =>
      intro hi
      have h1 := pyColumn_rect n i (hi i (by simp)) rows h
      simp [transposeGo, h1, ih (fun j hj => hi j (by simp [hj]))]

theorem transposeStage_rect (n : Nat) (rows : List (List PyVal)) (hne : rows ≠ [])
    (h : ∀ r ∈ rows, r.length = n) :
    transposeStage rows = .ok (transposedFun n rows) := by
  obtain ⟨r0, rest, rfl⟩ := List.exists_cons_of_ne_nil hne
  have h0 : r0.length = n := h r0 (by simp)
  show transposeGo (r0 :: rest) (List.range r0.length) = _
  rw [h0]
  exact transposeGo_rect n _ h _ (fun i hi => List.mem_range.mp hi)

theorem transposedFun_involutive (n : Nat) (rows : List (List PyVal))
    (h : ∀ r ∈ rows, r.length = n) :
    transposedFun rows.length (transposedFun n rows) = rows := by
  apply List.ext_getElem
  · simp [transposedFun]
  · intro j hj hj'
    have hjr : j < rows.length := hj'
    have e1 : (transposedFun rows.length (transposedFun n rows))[j]
        = (transposedFun n rows).map (fun r => r.getD j PyVal.none) := by
      simp [transposedFun]
    rw [e1]
    apply List.ext_getElem
    · simpa [transposedFun] using (h rows[j] (by simp)).symm
    · intro i hi hi'
      have hin : i < n := by simpa [transposedFun] using hi
      have hjl : j < (rows.map (fun r => r.getD i PyVal.none)).length := by
        simpa using hjr
      have e2 : ((transposedFun n rows).map (fun r => r.getD j PyVal.none))[i]
          = (rows.map (fun r => r.getD i PyVal.none)).getD j PyVal.none := by
        simp [transposedFun, hin]
      rw [e2, List.getD_eq_getElem _ _ hjl]
      have hins : i < rows[j].length := by
        rw [h rows[j] (by simp)]; exact hin
      simp [List.getD_eq_getElem _ _ hins, List.getElem?_eq_getElem hins]

theorem mapM_rowAsPair_tup (d : List (PyVal × PyVal)) :
    (d.map (fun p => PyVal.tup [p.1, p.2])).mapM rowAsPair = Except.ok d := by
  induction d with
  | nil => rfl
  | cons p rest ih =>
      rw [List.map_cons, List.mapM_cons,
          show rowAsPair (PyVal.tup [p.1, p.2]) = Except.ok (p.1, p.2) from rfl, ih]
      rfl

theorem mapM_rowAsPair_list (d : List (PyVal × PyVal)) :
    (d.map (fun p => PyVal.list [p.1, p.2])).mapM rowAsPair = Except.ok d := by
  induction d with
  | nil => rfl
  | cons p rest ih =>
      rw [List.map_cons, List.mapM_cons,
          show rowAsPair (PyVal.list [p.1, p.2]) = Except.ok (p.1, p.2) from rfl, ih]
      rfl

theorem resolveRead_all_pair (options : Options) (a b : PyType) (ea eb : RegEntry)
    (hall : options.types = Option.some TypesOpt.all) (hne : a ≠ b)
    (hca : ea.isConverter = true) (hcb : eb.isConverter = true)
    (hlt : ea.mroLen < eb.mroLen) :
    resolveConvertersRead [(a, ea), (b, eb)] options = [eb, ea] := by
  have hne' : b ≠ a := Ne.symm hne
  simp [resolveConvertersRead, hall, regKeys, sortTypesByInheritance, insertByMro,
        mroOf, lookupReg, hne, hne', hca, hcb, hlt]

/-! ## Claim theorems -/

/-- Claim C1 (code bug evaluation).  The claim says that a cell whose
exact runtime type has a registered Converter is written through that
converter's `write_value`.  The code instead calls
`_resolve_converters(value)` on the output accumulator list, whose
type is always `list`, so the cell's own type is never consulted:
with `dict` registered to `DictConverter` (as in `standard.py`), the
cell `{'a': 1}` is written through unchanged even though
`DictConverter.write_value` succeeds on it and returns the item
pairs. -/
theorem C1_write_resolution :
    convertDataForWriteStage regDictOnly optsPlain [[dictA1]] = [[dictA1]]
    ∧ resolveConvertersWrite regDictOnly dictA1 = [dictConverterEntry]
    ∧ dictConverterEntry.writeValue optsPlain dictA1
        = .ok (PyVal.list [PyVal.tup [PyVal.str "a", PyVal.int 1]]) :=
  ⟨rfl, rfl, rfl⟩

/-- Claim C2: `ConvertDataFromReadStage` converts each cell
independently by trying the resolved candidate converters in order;
a raising `read_value` falls through to the next candidate, the first
success becomes the cell's value, and when every candidate fails or
the candidate list is empty — in particular when the `types` option is
absent — the cell's original raw value is kept unchanged. -/
theorem C2_read_trial_loop :
    (∀ (reg : Registry) (options : Options) (rows : List (List PyVal)),
        convertDataFromReadStage reg options rows =
          rows.map (fun y => y.map (tryConverters
            (fun conv x => conv.readValue options x)
            (resolveConvertersRead reg options))))
    ∧ (∀ (options : Options) (pre : List RegEntry) (conv : RegEntry)
          (post : List RegEntry) (x r : PyVal),
        (∀ d ∈ pre, ∃ e, d.readValue options x = .error e) →
        conv.readValue options x = .ok r →
        tryConverters (fun cv xx => cv.readValue options xx) (pre ++ conv :: post) x = r)
    ∧ (∀ (options : Options) (convs : List RegEntry) (x : PyVal),
        (∀ d ∈ convs, ∃ e, d.readValue options x = .error e) →
        tryConverters (fun cv xx => cv.readValue options xx) convs x = x)
    ∧ (∀ (reg : Registry) (options : Options) (rows : List (List PyVal)),
        options.types = Option.none → convertDataFromReadStage reg options rows = rows) := by
  refine ⟨convertDataFromReadStage_eq, ?_, ?_, ?_⟩
  · intro options pre conv post x r hpre hok
    exact tryConverters_first_ok _ pre conv post x r hpre hok
  · intro options convs x h
    exact tryConverters_all_fail _ convs x h
  · intro reg options rows h
    rw [convertDataFromReadStage_eq]
    simp [resolveConvertersRead, h, tryConverters]

/-- Witness for C2: with no `types` option, a cell passes through
unchanged. -/
theorem C2_read_trial_loop_witness :
    convertDataFromReadStage regDictOnly optsPlain [[PyVal.int 3]] = [[PyVal.int 3]] :=
  C2_read_trial_loop.2.2.2 regDictOnly optsPlain [[PyVal.int 3]] rfl

/-- Claim C3: with `types='all'`, the candidate list is every
registered Converter sorted most-specific-first by inheritance depth
(`len(cls.mro())`, which is strictly larger for a strict subclass), so
for converters registered for `a` and a subtype `b` of `a`, the
`b`-converter comes first even though it was registered second — and a
cell of type `b` whose `b`-converter succeeds is converted by it, not
by the `a`-converter. -/
theorem C3_types_all_specificity (options : Options) (a b : PyType) (ea eb : RegEntry)
    (x rB : PyVal)
    (hall : options.types = Option.some TypesOpt.all) (hne : a ≠ b)
    (hca : ea.isConverter = true) (hcb : eb.isConverter = true)
    (hlt : ea.mroLen < eb.mroLen) :
    resolveConvertersRead [(a, ea), (b, eb)] options = [eb, ea]
    ∧ (typeOf x = b → eb.readValue options x = .ok rB →
        convertDataFromReadStage [(a, ea), (b, eb)] options [[x]] = [[rB]]) := by
  refine ⟨resolveRead_all_pair options a b ea eb hall hne hca hcb hlt, ?_⟩
  intro _ hok
  rw [convertDataFromReadStage_eq, resolveRead_all_pair options a b ea eb hall hne hca hcb hlt]
  have hfirst : tryConverters (fun conv x => conv.readValue options x) [eb, ea] x = rB :=
    tryConverters_first_ok _ [] eb [ea] x rB (by simp) hok
  simp [hfirst]

/-- Witness for C3: concrete base class `custom 0` (mro length 2) and
subclass `custom 1` (mro length 3), both with always-succeeding
converters; the subclass's converter wins on an instance of it. -/
theorem C3_types_all_specificity_witness :
    resolveConvertersRead [(PyType.custom 0, entryA), (PyType.custom 1, entryB)] optsTypesAll
      = [entryB, entryA]
    ∧ convertDataFromReadStage [(PyType.custom 0, entryA), (PyType.custom 1, entryB)]
        optsTypesAll [[PyVal.inst 1 0]] = [[PyVal.str "B"]] := by
  have h := C3_types_all_specificity optsTypesAll (PyType.custom 0) (PyType.custom 1)
    entryA entryB (PyVal.inst 1 0) (PyVal.str "B") rfl (by decide) rfl rfl (by decide)
  exact ⟨h.1, h.2 rfl rfl⟩

/-- Counterexample for C4: the claim says a grid that is neither 1×1
nor 1×N nor N×1 is left 2D under absent `ndim`; on the empty grid the
code instead raises `IndexError` (from `len(c.value[0])`). -/
theorem C4_counterexample :
    adjustDimensionsStage Option.none ([] : List (List PyVal)) = .error .indexError
    ∧ adjustDimensionsStage Option.none ([] : List (List PyVal)) ≠ .ok (pyGrid []) :=
  ⟨rfl, fun h => Except.noConfusion h⟩

/-- Claim C4 (amended): `AdjustDimensionsStage` with `ndim` absent
squeezes a 1×1 grid to the bare scalar, a 1×N or N×1 grid to a flat
sequence, and leaves any other nonempty grid 2D — the empty grid
raises an index error; with `ndim=1` a 1×N or N×1 grid becomes a flat
sequence, an M×N grid with M,N>1 raises a shape-violation error, and
the empty grid raises an index error; with `ndim=2` the grid is
unchanged; any other `ndim` raises an invalid-option error. -/
theorem C4_adjust_dimensions_amended :
    (∀ x, adjustDimensionsStage Option.none [[x]] = .ok x)
    ∧ (∀ r : List PyVal, r.length ≠ 1 →
        adjustDimensionsStage Option.none [r] = .ok (PyVal.list r))
    ∧ (∀ xs : List PyVal, 2 ≤ xs.length →
        adjustDimensionsStage Option.none (xs.map (fun x => [x])) = .ok (PyVal.list xs))
    ∧ (∀ rows : List (List PyVal), 2 ≤ rows.length → rows.headI.length ≠ 1 →
        adjustDimensionsStage Option.none rows = .ok (pyGrid rows))
    ∧ adjustDimensionsStage Option.none ([] : List (List PyVal)) = .error .indexError
    ∧ (∀ r : List PyVal, adjustDimensionsStage (Option.some 1) [r] = .ok (PyVal.list r))
    ∧ (∀ xs : List PyVal, 2 ≤ xs.length →
        adjustDimensionsStage (Option.some 1) (xs.map (fun x => [x])) = .ok (PyVal.list xs))
    ∧ (∀ rows : List (List PyVal), 2 ≤ rows.length → 2 ≤ rows.headI.length →
        adjustDimensionsStage (Option.some 1) rows = .error .shapeError)
    ∧ adjustDimensionsStage (Option.some 1) ([] : List (List PyVal)) = .error .indexError
    ∧ (∀ rows : List (List PyVal), adjustDimensionsStage (Option.some 2) rows = .ok (pyGrid rows))
    ∧ (∀ (k : Int) (rows : List (List PyVal)), k ≠ 1 → k ≠ 2 →
        adjustDimensionsStage (Option.some k) rows = .error .valueError) := by
  refine ⟨fun x => rfl, ?_, ?_, ?_, rfl, ?_, ?_, ?_, rfl, ?_, ?_⟩
  · intro r h
    cases r with
    | nil => rfl
    | cons x t =>
        cases t with
        | nil => exact absurd rfl h
        | cons y t2 => rfl
  · intro xs h
    cases xs with
    | nil => simp at h
    | cons x0 t =>
        cases t with
        | nil => simp at h
        | cons x1 t2 =>
            have hf := firstOfRows_singletons (x0 :: x1 :: t2)
            simp only [List.map_cons] at hf
            simp [adjustDimensionsStage, hf, Except.map]
  · intro rows h1 h2
    cases rows with
    | nil => simp at h1
    | cons r0 t =>
        cases t with
        | nil => simp at h1
        | cons r1 t2 =>
            simp only [List.headI] at h2
            simp [adjustDimensionsStage, h2]
  · intro r; rfl
  · intro xs h
    cases xs with
    | nil => simp at h
    | cons x0 t =>
        cases t with
        | nil => simp at h
        | cons x1 t2 =>
            have hf := firstOfRows_singletons (x0 :: x1 :: t2)
            simp only [List.map_cons] at hf
            simp [adjustDimensionsStage, hf, Except.map]
  · intro rows h1 h2
    cases rows with
    | nil => simp at h1
    | cons r0 t =>
        cases t with
        | nil => simp at h1
        | cons r1 t2 =>
            simp only [List.headI] at h2
            have h3 : r0.length ≠ 1 := by omega
            simp [adjustDimensionsStage, h3]
  · intro rows; rfl
  · intro k rows h1 h2
    simp [adjustDimensionsStage, h1, h2]

/-- Witness for C4 (amended): a 2×1 grid squeezes to a flat pair, and
`ndim=1` on a 2×2 grid raises the shape error. -/
theorem C4_adjust_dimensions_witness :
    adjustDimensionsStage Option.none ([PyVal.int 1, PyVal.int 2].map (fun x => [x]))
      = .ok (PyVal.list [PyVal.int 1, PyVal.int 2])
    ∧ adjustDimensionsStage (Option.some 1)
        [[PyVal.int 1, PyVal.int 2], [PyVal.int 3, PyVal.int 4]] = .error .shapeError :=
  ⟨C4_adjust_dimensions_amended.2.2.1 [PyVal.int 1, PyVal.int 2] (by decide),
   C4_adjust_dimensions_amended.2.2.2.2.2.2.2.1
     [[PyVal.int 1, PyVal.int 2], [PyVal.int 3, PyVal.int 4]] (by decide) (by decide)⟩

/-- Counterexample for C5: with `expand` set (and no transpose), the
writer pipeline executes, in order, Ensure2D, ConvertDataForWrite,
CleanDataForWrite, ClearExpandedRange, WriteValueToRange — so the
clearing stage runs BEFORE the value is written, not after as the
claim states. -/
theorem C5_counterexample :
    valueWriterStages optsExpandTable
      = [StageTag.ensure2D, StageTag.convertDataForWrite, StageTag.cleanDataForWrite,
         StageTag.clearExpandedRange, StageTag.writeValueToRange]
    ∧ (valueWriterStages optsExpandTable).indexOf StageTag.clearExpandedRange
        < (valueWriterStages optsExpandTable).indexOf StageTag.writeValueToRange
    ∧ ¬ ((valueWriterStages optsExpandTable).indexOf StageTag.writeValueToRange
        < (valueWriterStages optsExpandTable).indexOf StageTag.clearExpandedRange) := by
  refine ⟨by decide, by decide, by decide⟩

/-- Claim C5 (amended): in every writer pipeline built with the
`expand` option set, `ClearExpandedRangeStage` executes immediately
BEFORE `WriteValueToRangeStage`, which is the final stage — the
clearing of previously-expanded cells happens just before the value is
written, not after. -/
theorem C5_clear_before_write_amended (options : Options)
    (h : expandTruthy options.expand = true) :
    (valueWriterStages options).reverse.take 2
      = [StageTag.writeValueToRange, StageTag.clearExpandedRange] := by
  cases ht : options.transpose <;>
    simp [valueWriterStages, prependStage, h, ht]

/-- Witness for C5 (amended) at `expand='table'`. -/
theorem C5_clear_before_write_witness :
    (valueWriterStages optsExpandTable).reverse.take 2
      = [StageTag.writeValueToRange, StageTag.clearExpandedRange] :=
  C5_clear_before_write_amended optsExpandTable rfl

/-- Claim C6: `Ensure2DStage` leaves an already-nested (or empty)
list/tuple unchanged, wraps a nonempty flat sequence as the single row
`[seq]`, and wraps a non-sequence scalar as `[[value]]` while setting
the `scalar` metadata flag — and the flag is set in no other case (it
is passed through unchanged for sequences). -/
theorem C6_ensure2d :
    (∀ b, ensure2DStage ⟨PyVal.list [], b⟩ = ⟨PyVal.list [], b⟩)
    ∧ (∀ b, ensure2DStage ⟨PyVal.tup [], b⟩ = ⟨PyVal.tup [], b⟩)
    ∧ (∀ (b : Bool) (x : PyVal) (xs : List PyVal), isSeq x = true →
        ensure2DStage ⟨PyVal.list (x :: xs), b⟩ = ⟨PyVal.list (x :: xs), b⟩)
    ∧ (∀ (b : Bool) (x : PyVal) (xs : List PyVal), isSeq x = true →
        ensure2DStage ⟨PyVal.tup (x :: xs), b⟩ = ⟨PyVal.tup (x :: xs), b⟩)
    ∧ (∀ (b : Bool) (x : PyVal) (xs : List PyVal), isSeq x = false →
        ensure2DStage ⟨PyVal.list (x :: xs), b⟩ = ⟨PyVal.list [PyVal.list (x :: xs)], b⟩)
    ∧ (∀ (b : Bool) (x : PyVal) (xs : List PyVal), isSeq x = false →
        ensure2DStage ⟨PyVal.tup (x :: xs), b⟩ = ⟨PyVal.list [PyVal.tup (x :: xs)], b⟩)
    ∧ (∀ c : Ctx, isSeq c.value = false →
        ensure2DStage c = ⟨PyVal.list [PyVal.list [c.value]], true⟩)
    ∧ (∀ c : Ctx, (ensure2DStage c).scalar = true →
        c.scalar = true ∨ isSeq c.value = false) := by
  refine ⟨fun b => rfl, fun b => rfl, ?_, ?_, ?_, ?_, ?_, ?_⟩
  · intro b x xs h; simp [ensure2DStage, h]
  · intro b x xs h; simp [ensure2DStage, h]
  · intro b x xs h; simp [ensure2DStage, h]
  · intro b x xs h; simp [ensure2DStage, h]
  · intro c h
    obtain ⟨v, b⟩ := c
    cases v <;> simp_all [ensure2DStage, isSeq]
  · intro c h
    obtain ⟨v, b⟩ := c
    cases v with
    | list l =>
        left
        cases l with
        | nil => exact h
        | cons x xs =>
            cases hx : isSeq x
            · simpa [ensure2DStage, hx] using h
            · simpa [ensure2DStage, hx] using h
    | tup l =>
        left
        cases l with
        | nil => exact h
        | cons x xs =>
            cases hx : isSeq x
            · simpa [ensure2DStage, hx] using h
            · simpa [ensure2DStage, hx] using h
    | none => right; rfl
    | bool b2 => right; rfl
    | int n => right; rfl
    | str s => right; rfl
    | dict d => right; rfl
    | kv k v2 => right; rfl
    | inst t p => right; rfl

/-- Witness for C6: a flat pair is wrapped as one row without touching
the flag, and a scalar is wrapped twice with the flag set. -/
theorem C6_ensure2d_witness :
    ensure2DStage ⟨PyVal.list [PyVal.int 7, PyVal.int 8], false⟩
      = ⟨PyVal.list [PyVal.list [PyVal.int 7, PyVal.int 8]], false⟩
    ∧ ensure2DStage ⟨PyVal.int 7, false⟩
      = ⟨PyVal.list [PyVal.list [PyVal.int 7]], true⟩ :=
  ⟨C6_ensure2d.2.2.2.2.1 false (PyVal.int 7) [PyVal.int 8] rfl,
   C6_ensure2d.2.2.2.2.2.2.1 ⟨PyVal.int 7, false⟩ rfl⟩

/-- Claim C7: `ObjectConverter.read_value` of a handle absent from the
cache raises `KeyError`; `write_value` of anything that is not a
`KeyValuePair` raises `TypeError`; and writing a `(key, value)` pair
stores the value under the key, returns the key as the written cell
value, and a subsequent read of that key returns the stored object. -/
theorem C7_object_cache :
    (∀ (cache : List (PyVal × PyVal)) (v : PyVal), pyDictGet cache v = Option.none →
        objectReadValue cache v = .error .keyError)
    ∧ (∀ (cache : List (PyVal × PyVal)) (v : PyVal), isKeyValuePair v = false →
        objectWriteValue cache v = .error .typeError)
    ∧ (∀ (cache : List (PyVal × PyVal)) (k obj : PyVal),
        objectWriteValue cache (PyVal.kv k obj) = .ok (pyDictInsert cache k obj, k)
        ∧ objectReadValue (pyDictInsert cache k obj) k = .ok obj) := by
  refine ⟨?_, ?_, ?_⟩
  · intro cache v h; simp [objectReadValue, h]
  · intro cache v h
    cases v <;> simp_all [objectWriteValue, isKeyValuePair]
  · intro cache k obj
    exact ⟨rfl, by simp [objectReadValue, pyDictGet_insert_self]⟩

/-- Witness for C7: reading an unwritten handle fails, and reading
back a freshly written key returns the stored object. -/
theorem C7_object_cache_witness :
    objectReadValue [] (PyVal.str "h") = .error .keyError
    ∧ objectReadValue (pyDictInsert [] (PyVal.str "k") (PyVal.int 9)) (PyVal.str "k")
        = .ok (PyVal.int 9) :=
  ⟨C7_object_cache.1 [] (PyVal.str "h") rfl,
   (C7_object_cache.2.2 [] (PyVal.str "k") (PyVal.int 9)).2⟩

/-- Claim C8: `DictConverter.write_value` flattens a mapping into its
(key, value) row pairs (`{'a': 1, 'b': 2}` yields the two rows), and
`read_value` applied to a grid of exactly-2-column rows (the shape of
the first row is asserted) reconstructs the mapping, so write followed
by read reproduces the original mapping (a Python dict always has
pairwise-distinct keys under `==`). -/
theorem C8_dict_roundtrip :
    dictWriteValue (PyVal.dict [(PyVal.str "a", PyVal.int 1), (PyVal.str "b", PyVal.int 2)])
      = .ok (PyVal.list [PyVal.tup [PyVal.str "a", PyVal.int 1],
                         PyVal.tup [PyVal.str "b", PyVal.int 2]])
    ∧ (∀ d : List (PyVal × PyVal),
        dictWriteValue (PyVal.dict d)
          = .ok (PyVal.list (d.map (fun p => PyVal.tup [p.1, p.2]))))
    ∧ (∀ ps : List (PyVal × PyVal),
        dictReadValue (PyVal.list (ps.map (fun p => PyVal.list [p.1, p.2])))
          = .ok (PyVal.dict (pyDictFromPairs ps)))
    ∧ (∀ (r rs : List PyVal), r.length ≠ 2 →
        dictReadValue (PyVal.list (PyVal.list r :: rs)) = .error .assertionError)
    ∧ (∀ d : List (PyVal × PyVal),
        d.Pairwise (fun p q => PyVal.beq p.1 q.1 = false) →
        (dictWriteValue (PyVal.dict d) >>= dictReadValue) = .ok (PyVal.dict d)) := by
  refine ⟨rfl, fun d => rfl, ?_, ?_, ?_⟩
  · intro ps
    cases ps with
    | nil => rfl
    | cons p rest =>
        have h := mapM_rowAsPair_list (p :: rest)
        simp only [List.map_cons, List.mapM] at h
        simp [dictReadValue, pyLen, h, Except.map]
  · intro r rs h
    simp [dictReadValue, pyLen, h]
  · intro d hnd
    show dictReadValue (PyVal.list (d.map (fun p => PyVal.tup [p.1, p.2]))) = _
    cases d with
    | nil => rfl
    | cons p rest =>
        have h := mapM_rowAsPair_tup (p :: rest)
        simp only [List.map_cons, List.mapM] at h
        simp [dictReadValue, pyLen, h, Except.map, pyDictFromPairs_nodup _ hnd]

/-- Witness for C8: the `{'a': 1, 'b': 2}` round trip. -/
theorem C8_dict_roundtrip_witness :
    (dictWriteValue (PyVal.dict [(PyVal.str "a", PyVal.int 1), (PyVal.str "b", PyVal.int 2)])
        >>= dictReadValue)
      = .ok (PyVal.dict [(PyVal.str "a", PyVal.int 1), (PyVal.str "b", PyVal.int 2)]) :=
  C8_dict_roundtrip.2.2.2.2 [(PyVal.str "a", PyVal.int 1), (PyVal.str "b", PyVal.int 2)]
    (by simp [List.pairwise_cons]; rfl)

/-- Counterexample for C9: on the 1×0 grid `[[]]` a first transpose
yields `[]` (zero columns) and a second leaves `[]`, which differs
from the original grid — so double transposition does not return
every 2D grid unchanged. -/
theorem C9_counterexample :
    (transposeStage ([[]] : List (List PyVal)) >>= transposeStage)
      = .ok ([] : List (List PyVal))
    ∧ (transposeStage ([[]] : List (List PyVal)) >>= transposeStage)
      ≠ .ok ([[]] : List (List PyVal)) := by
  refine ⟨rfl, ?_⟩
  intro h
  rw [show (transposeStage ([[]] : List (List PyVal)) >>= transposeStage)
        = .ok ([] : List (List PyVal)) from rfl] at h
  injection h with h2
  exact List.noConfusion h2

/-- Claim C9 (amended): a single application of `TransposeStage` to a
rectangular grid swaps rows and columns, and applying it twice returns
the original grid provided the grid is empty or has at least one
column (an M×0 grid with M ≥ 1 collapses to `[]`). -/
theorem C9_transpose_amended :
    (∀ (n : Nat) (rows : List (List PyVal)), rows ≠ [] → (∀ r ∈ rows, r.length = n) →
        transposeStage rows = .ok (transposedFun n rows))
    ∧ (∀ (n : Nat) (rows : List (List PyVal)), (∀ r ∈ rows, r.length = n) →
        (rows = [] ∨ 1 ≤ n) →
        (transposeStage rows >>= transposeStage) = .ok rows) := by
  refine ⟨transposeStage_rect, ?_⟩
  intro n rows hrect hdis
  cases rows with
  | nil => rfl
  | cons r0 rest =>
      have hn : 1 ≤ n := by
        rcases hdis with h | h
        · exact absurd h (by simp)
        · exact h
      have h1 : transposeStage (r0 :: rest) = .ok (transposedFun n (r0 :: rest)) :=
        transposeStage_rect n _ (by simp) hrect
      rw [h1]
      show transposeStage (transposedFun n (r0 :: rest)) = .ok (r0 :: rest)
      have hne1 : transposedFun n (r0 :: rest) ≠ [] := by
        simp [transposedFun, List.map_eq_nil_iff, List.range_eq_nil]
        omega
      have hrect1 : ∀ r ∈ transposedFun n (r0 :: rest), r.length = (r0 :: rest).length := by
        intro r hr
        simp only [transposedFun, List.mem_map] at hr
        obtain ⟨i, _, rfl⟩ := hr
        simp
      rw [transposeStage_rect ((r0 :: rest).length) _ hne1 hrect1,
          transposedFun_involutive n _ hrect]

/-- Witness for C9 (amended): double transposition of a 2×2 grid. -/
theorem C9_transpose_witness :
    (transposeStage [[PyVal.int 1, PyVal.int 2], [PyVal.int 3, PyVal.int 4]]
        >>= transposeStage)
      = .ok [[PyVal.int 1, PyVal.int 2], [PyVal.int 3, PyVal.int 4]] :=
  C9_transpose_amended.2 2 [[PyVal.int 1, PyVal.int 2], [PyVal.int 3, PyVal.int 4]]
    (by decide) (Or.inr (by decide))

/-- Claim C10: when the context has no range, or its value is the
empty grid `[]` (falsy in Python), `WriteValueToRangeStage` does
nothing: no resize, no cell write, and the context is returned
unchanged. -/
theorem C10_write_noop (apiOk : RangeExpr → Bool) (skip : Option (Nat × Nat))
    (raw : Bool) (c : WCtx)
    (h : c.range = Option.none ∨ c.value = PyVal.list []) :
    writeValueToRangeStage apiOk skip raw c = .ok (c, []) := by
  obtain ⟨rng, v, sc⟩ := c
  rcases h with h | h
  · simp only at h
    subst h
    rfl
  · simp only at h
    subst h
    cases rng with
    | none => rfl
    | some r => rfl

/-- Witness for C10: an absent range, and an empty grid with a range
present, both leave everything untouched. -/
theorem C10_write_noop_witness :
    writeValueToRangeStage (fun _ => true) Option.none false
        ⟨Option.none, PyVal.int 3, false⟩
      = .ok (⟨Option.none, PyVal.int 3, false⟩, [])
    ∧ writeValueToRangeStage (fun _ => true) (Option.some (1, 0)) false
        ⟨Option.some RangeExpr.base, PyVal.list [], false⟩
      = .ok (⟨Option.some RangeExpr.base, PyVal.list [], false⟩, []) :=
  ⟨C10_write_noop _ _ _ _ (Or.inl rfl), C10_write_noop _ _ _ _ (Or.inr rfl)⟩

end XlwingsConv
